import Mathlib

/-!
Shallow embedding of the dAUXimity signaling server (`server.js`): the
in-memory room store, the socket.io channel bookkeeping, and the event
handlers `join-lobby`, `create-room`, `join-room`, `leave-room`,
`webrtc-signal` and `disconnect` (via `handleLeaveRoom` and the
room scan), together with the lobby broadcaster.

JS `Set` objects are modelled as duplicate-free lists in insertion order,
the JS `Map` of rooms as an association list in insertion order, and each
`io.to(dest).emit(...)` as a `Delivery` recording the destination channel,
the recipients resolved at emission time (socket.io delivers a channel
emit to every connected socket that joined the channel, and a socket-id
destination to that socket itself), and the event payload.
-/

namespace Pulsify

/-- A chat message as built by the server (`new-message` payloads). -/
structure ChatMsg where
  id : String
  userId : String
  text : String
  system : Bool
  timestamp : Nat
deriving Repr, DecidableEq

/-- A room record of the in-memory store:
`{ id, name, hostId, listeners: Set, createdAt, status, isDemo?, streamUrl? }`. -/
structure Room where
  id : String
  name : String
  hostId : String
  listeners : List String
  createdAt : Nat
  status : String
  isDemo : Bool
  streamUrl : Option String
deriving Repr, DecidableEq

/-- The wire snapshot of a room sent to clients: the listener set is
stripped (`listeners: undefined`) and replaced by `listenerCount`. -/
structure RoomInfo where
  id : String
  name : String
  hostId : String
  listenerCount : Nat
  createdAt : Nat
  status : String
  isDemo : Bool
  streamUrl : Option String
deriving Repr, DecidableEq

/-- Wire form `{ ...r, listenerCount: r.listeners.size, listeners: undefined }`. -/
def Room.info (r : Room) : RoomInfo :=
  ⟨r.id, r.name, r.hostId, r.listeners.length, r.createdAt, r.status, r.isDemo, r.streamUrl⟩

/-- Server state: the `rooms` Map (insertion order), the set of connected
socket ids, and the socket.io channel memberships (socket id, channel). -/
structure ServerState where
  rooms : List Room
  connected : List String
  chans : List (String × String)
deriving Repr, DecidableEq

/-- JS `Set.add`: no-op when the element is present, appended otherwise. -/
def setAdd (l : List String) (x : String) : List String :=
  if x ∈ l then l else l ++ [x]

/-- JS `Set.delete`. -/
def setDelete (l : List String) (x : String) : List String :=
  l.filter (fun y => decide (y ≠ x))

/-- JS `Map.get`. -/
def mapGet (rooms : List Room) (rid : String) : Option Room :=
  rooms.find? (fun r => decide (r.id = rid))

/-- JS `Map.set`: replace the entry with the same key in place, else append. -/
def mapSet : List Room → Room → List Room
  | [], r => [r]
  | q :: qs, r => if q.id = r.id then r :: qs else q :: mapSet qs r

/-- JS `Map.delete`. -/
def mapDelete (rooms : List Room) (rid : String) : List Room :=
  rooms.filter (fun r => decide (r.id ≠ rid))

/-- The effect of `socket.join(c)` for socket `p`. -/
def chanJoin (st : ServerState) (p c : String) : ServerState :=
  if (p, c) ∈ st.chans then st else { st with chans := st.chans ++ [(p, c)] }

/-- The effect of `socket.leave(c)` for socket `p`. -/
def chanLeave (st : ServerState) (p c : String) : ServerState :=
  { st with chans := st.chans.filter (fun q => decide (q ≠ (p, c))) }

/-- Events emitted by the server to clients. -/
inductive Event where
  | roomList (rooms : List RoomInfo)
  | userJoined (userId : String)
  | userLeft (userId : String)
  | newMessage (msg : ChatMsg)
  | webrtcSignal (type payload senderId : String)
deriving Repr, DecidableEq

/-- One `io.to(dest).emit(event)` call: the destination (a channel name or
a socket id) and the recipients resolved when the emit happens. -/
structure Delivery where
  dest : String
  recipients : List String
  event : Event
deriving Repr, DecidableEq

/-- The connected sockets that receive an emit to `dest`: each socket is
implicitly in the channel named by its own id, plus explicit memberships. -/
def recipients (st : ServerState) (dest : String) : List String :=
  st.connected.filter (fun p => decide (p = dest ∨ (p, dest) ∈ st.chans))

/-- Build the `Delivery` of `io.to(dest).emit(e)` in state `st`. -/
def emitTo (st : ServerState) (dest : String) (e : Event) : Delivery :=
  ⟨dest, recipients st dest, e⟩

/-- The room list sent to the lobby: every room, listener count computed
fresh, listener set stripped. -/
def roomListSnapshot (st : ServerState) : List RoomInfo :=
  st.rooms.map Room.info

/-- The helper `broadcastLobbyUpdate()`: emit the room list to the `lobby` channel. -/
def broadcastLobbyUpdate (st : ServerState) : Delivery :=
  emitTo st "lobby" (Event.roomList (roomListSnapshot st))

/-- The `join-lobby` handler: join the `lobby` channel and send the room
list to the requesting socket. -/
def joinLobby (st : ServerState) (sock : String) : ServerState × List Delivery :=
  let st1 := chanJoin st sock "lobby"
  (st1, [emitTo st1 sock (Event.roomList (roomListSnapshot st1))])

/-- JS `Date.now().toString().slice(-6)`: the last six characters of the
decimal representation (the whole string when shorter). -/
def last6 (n : Nat) : String :=
  let s := Nat.repr n
  s.drop (s.length - 6)

/-- The generated room identifier: `room-${Date.now().toString().slice(-6)}`. -/
def freshRoomId (now : Nat) : String :=
  "room-" ++ last6 now

/-- The room built by the `create-room` handler; an absent or empty name
falls back to `Signal ${roomId}` (JS `name || ...`, empty string falsy). -/
def mkRoom (sock : String) (now : Nat) (name : Option String) : Room :=
  let roomId := freshRoomId now
  { id := roomId
    name := match name with
            | some n => if n = "" then "Signal " ++ roomId else n
            | none => "Signal " ++ roomId
    hostId := sock
    listeners := []
    createdAt := now
    status := "active"
    isDemo := false
    streamUrl := none }

/-- The `create-room` handler: allocate the id, register the room, join the
host to the room channel, ack the raw room to the host, republish the lobby. -/
def createRoom (st : ServerState) (sock : String) (now : Nat) (name : Option String) :
    ServerState × List Delivery × Room :=
  let newRoom := mkRoom sock now name
  let st1 := { st with rooms := mapSet st.rooms newRoom }
  let st2 := chanJoin st1 sock newRoom.id
  (st2, [broadcastLobbyUpdate st2], newRoom)

/-- The acknowledgment returned by the `join-room` callback. -/
inductive JoinAck where
  | failure (message : String)
  | success (room : RoomInfo)
deriving Repr, DecidableEq

/-- The `join-room` handler: unknown id → failure ack, nothing else;
otherwise join the channel, add to the listener set, notify the host with
`user-joined`, ack a stripped snapshot, republish the lobby. -/
def joinRoom (st : ServerState) (sock : String) (roomId : String) :
    ServerState × List Delivery × JoinAck :=
  match mapGet st.rooms roomId with
  | none => (st, [], JoinAck.failure "Room not found or signal lost.")
  | some room =>
    let st1 := chanJoin st sock roomId
    let room' := { room with listeners := setAdd room.listeners sock }
    let st2 := { st1 with rooms := mapSet st1.rooms room' }
    (st2,
     [emitTo st2 room.hostId (Event.userJoined sock), broadcastLobbyUpdate st2],
     JoinAck.success room'.info)

/-- The system notice emitted when a host departs a non-demo room. -/
def sysDestroyMsg (now : Nat) : ChatMsg :=
  ⟨"sys-destroy", "SYSTEM", "HOST DISCONNECTED. SIGNAL LOST.", true, now⟩

/-- The helper `handleLeaveRoom(socket, roomId)`: unknown room → return; demo room →
drop the listener, leave the channel, `user-left`, republish; host of a
user room → system notice to the room, delete the room, republish;
otherwise drop the listener, leave the channel, `user-left`, republish. -/
def handleLeaveRoom (st : ServerState) (sock roomId : String) (now : Nat) :
    ServerState × List Delivery :=
  match mapGet st.rooms roomId with
  | none => (st, [])
  | some room =>
    if room.isDemo then
      let room' := { room with listeners := setDelete room.listeners sock }
      let st1 := { st with rooms := mapSet st.rooms room' }
      let st2 := chanLeave st1 sock roomId
      (st2, [emitTo st2 roomId (Event.userLeft sock), broadcastLobbyUpdate st2])
    else if room.hostId = sock then
      let d := emitTo st roomId (Event.newMessage (sysDestroyMsg now))
      let st1 := { st with rooms := mapDelete st.rooms roomId }
      (st1, [d, broadcastLobbyUpdate st1])
    else
      let room' := { room with listeners := setDelete room.listeners sock }
      let st1 := { st with rooms := mapSet st.rooms room' }
      let st2 := chanLeave st1 sock roomId
      (st2, [emitTo st2 roomId (Event.userLeft sock), broadcastLobbyUpdate st2])

/-- The `webrtc-signal` handler with all fields present: forward
`{type, payload, senderId}` to the target, touching no state. -/
def webrtcSignal (st : ServerState) (sock : String) (type payload targetUserId : String) :
    ServerState × List Delivery :=
  (st, [emitTo st targetUserId (Event.webrtcSignal type payload sock)])

/-- socket.io transport-level effect of a disconnect, applied before the
`disconnect` event handler runs: the socket is removed from the connected
set and from every channel. -/
def dropSock (st : ServerState) (sock : String) : ServerState :=
  { st with
    connected := st.connected.filter (fun p => decide (p ≠ sock))
    chans := st.chans.filter (fun q => decide (q.1 ≠ sock)) }

/-- The `rooms.forEach` scan of the `disconnect` handler: visit each room
id, re-fetch it (a room deleted earlier in the scan is skipped, matching
JS `Map.forEach` semantics), and apply `handleLeaveRoom` when the
disconnected socket is its host or one of its listeners. -/
def scanRooms (st : ServerState) (sock : String) (now : Nat) :
    List String → ServerState × List Delivery
  | [] => (st, [])
  | rid :: rest =>
    match mapGet st.rooms rid with
    | none => scanRooms st sock now rest
    | some room =>
      if room.hostId = sock ∨ sock ∈ room.listeners then
        let p := handleLeaveRoom st sock rid now
        let q := scanRooms p.1 sock now rest
        (q.1, p.2 ++ q.2)
      else scanRooms st sock now rest

/-- The `disconnect` handler: the transport removes the socket, then the
room scan applies leave semantics wherever it was host or listener. -/
def disconnect (st : ServerState) (sock : String) (now : Nat) :
    ServerState × List Delivery :=
  let st0 := dropSock st sock
  scanRooms st0 sock now (st0.rooms.map Room.id)

/-- The demo rooms registered at startup, `createdAt` the startup time. -/
def demoRooms (t0 : Nat) : List Room :=
  [⟨"demo-nts-1", "NTS Radio 1", "SYSTEM", [], t0, "active", true,
     some "https://stream-relay-geo.ntslive.net/stream"⟩,
   ⟨"demo-soma-groove", "SomaFM Groove Salad", "SYSTEM", [], t0, "active", true,
     some "https://ice2.somafm.com/groovesalad-128-mp3"⟩,
   ⟨"demo-soma-defcon", "SomaFM DEF CON Radio", "SYSTEM", [], t0, "active", true,
     some "https://ice2.somafm.com/defcon-128-mp3"⟩,
   ⟨"demo-lofi", "Lofi Girl Radio", "SYSTEM", [], t0, "active", true,
     some "https://play.streamafrica.net/lofiradio"⟩]

/-- The server state right after startup: the demo rooms, no connections. -/
def initState (t0 : Nat) : ServerState :=
  ⟨demoRooms t0, [], []⟩

/-- One inbound event relevant to the room store. -/
inductive Op where
  | createRoom (sock : String) (now : Nat) (name : Option String)
  | joinRoom (sock roomId : String)
  | leaveRoom (sock roomId : String) (now : Nat)
  | disconnect (sock : String) (now : Nat)
deriving Repr, DecidableEq

/-- Whether an op is a `create-room`. -/
def Op.isCreate : Op → Bool
  | .createRoom _ _ _ => true
  | _ => false

/-- Apply one op to the state (the handler for that event). -/
def applyOp (st : ServerState) : Op → ServerState × List Delivery
  | .createRoom s now name => let r := createRoom st s now name; (r.1, r.2.1)
  | .joinRoom s rid => let r := joinRoom st s rid; (r.1, r.2.1)
  | .leaveRoom s rid now => handleLeaveRoom st s rid now
  | .disconnect s now => disconnect st s now

/-- Run a sequence of ops. -/
def run (st : ServerState) : List Op → ServerState
  | [] => st
  | op :: ops => run (applyOp st op).1 ops

/-- Is an event a system chat notice (`new-message` with the system flag)? -/
def isSysChat : Event → Bool
  | .newMessage m => m.system
  | _ => false

/-- Is a delivery a system chat notice addressed to channel `rid`? -/
def sysTo (rid : String) (d : Delivery) : Bool :=
  decide (d.dest = rid) && isSysChat d.event

/-- How many system chat notices addressed to channel `rid` does
participant `p` receive among the deliveries `ds`? -/
def sysNoticesTo (p rid : String) (ds : List Delivery) : Nat :=
  ((ds.filter (sysTo rid)).filter (fun d => decide (p ∈ d.recipients))).length

/-! ### The handlers on raw wire input

A socket.io listener receives exactly the arguments the client sent; the
server destructures them and calls the acknowledgment callback without
any validation, and socket.io does not catch exceptions thrown by a
listener. The raw variants below model that: a missing argument object
makes the parameter destructuring throw a `TypeError`, and a missing
acknowledgment callback makes the `callback(...)` call throw one; state
mutations and emissions performed before the throw stay in place. -/

/-- A JavaScript runtime error escaping an event handler. -/
inductive JsError where
  | typeError
deriving Repr, DecidableEq

/-- The argument object of `webrtc-signal` with all fields present. -/
structure SignalArg where
  type : String
  payload : String
  targetUserId : String
deriving Repr, DecidableEq

/-- The `webrtc-signal` handler on the raw argument: destructuring `undefined` throws. -/
def webrtcSignalRaw (st : ServerState) (sock : String) (arg : Option SignalArg) :
    ServerState × List Delivery × Except JsError Unit :=
  match arg with
  | none => (st, [], Except.error JsError.typeError)
  | some a =>
    let r := webrtcSignal st sock a.type a.payload a.targetUserId
    (r.1, r.2, Except.ok ())

/-- The `create-room` handler with the ack callback possibly absent: the room is
registered and the channel joined before `callback(newRoom)` runs, so an
absent callback leaves the new room in the store and then throws;
`broadcastLobbyUpdate` never runs in that case. -/
def createRoomRaw (st : ServerState) (sock : String) (now : Nat) (name : Option String)
    (cbPresent : Bool) : ServerState × List Delivery × Except JsError Room :=
  let newRoom := mkRoom sock now name
  let st1 := { st with rooms := mapSet st.rooms newRoom }
  let st2 := chanJoin st1 sock newRoom.id
  if cbPresent then (st2, [broadcastLobbyUpdate st2], Except.ok newRoom)
  else (st2, [], Except.error JsError.typeError)

/-- The `join-room` handler with the ack callback possibly absent: on an unknown room
the failure callback itself throws; on a known room the join and the
`user-joined` notification happen first, then the callback throws. -/
def joinRoomRaw (st : ServerState) (sock roomId : String) (cbPresent : Bool) :
    ServerState × List Delivery × Except JsError JoinAck :=
  match mapGet st.rooms roomId with
  | none =>
    if cbPresent then (st, [], Except.ok (JoinAck.failure "Room not found or signal lost."))
    else (st, [], Except.error JsError.typeError)
  | some room =>
    let st1 := chanJoin st sock roomId
    let room' := { room with listeners := setAdd room.listeners sock }
    let st2 := { st1 with rooms := mapSet st1.rooms room' }
    if cbPresent then
      (st2, [emitTo st2 room.hostId (Event.userJoined sock), broadcastLobbyUpdate st2],
       Except.ok (JoinAck.success room'.info))
    else (st2, [emitTo st2 room.hostId (Event.userJoined sock)],
          Except.error JsError.typeError)

/-! ### Invariants and sample data -/

/-- Claim C1's invariant: no room's listener set contains its own host. -/
def HostInv (st : ServerState) : Prop :=
  ∀ r ∈ st.rooms, r.hostId ∉ r.listeners

instance hostInvDecidable (st : ServerState) : Decidable (HostInv st) :=
  inferInstanceAs (Decidable (∀ r ∈ st.rooms, r.hostId ∉ r.listeners))

/-- Does `op`, taken in state `st`, avoid a host joining the room it
hosts? (`true` for every other kind of op.) -/
def okOp (st : ServerState) : Op → Bool
  | .joinRoom s rid => st.rooms.all fun r => !(decide (r.id = rid) && decide (r.hostId = s))
  | _ => true

/-- No op of the trace is a host joining its own room, each op checked
against the state it actually runs in. -/
def noSelfJoin (st : ServerState) : List Op → Bool
  | [] => true
  | op :: ops => okOp st op && noSelfJoin (applyOp st op).1 ops

/-- Claim C5's per-room property: the room stored under `d.id` is still
`d` itself, up to its listener set. -/
def DemoP (d : Room) (st : ServerState) : Prop :=
  ∃ l, mapGet st.rooms d.id = some { d with listeners := l }

/-- One `create-room` request of a creation-only trace. -/
structure CreateReq where
  sock : String
  now : Nat
  name : Option String
deriving Repr, DecidableEq

/-- Run a trace consisting only of `create-room` requests. -/
def runCreates (st : ServerState) (cs : List CreateReq) : ServerState :=
  run st (cs.map fun c => Op.createRoom c.sock c.now c.name)

/-- A user room used in concrete witnesses: hosted by `"H"`, with
listener `"L"`. -/
def sampleRoom : Room :=
  ⟨"room-000042", "Signal room-000042", "H", ["L"], 1700000000042, "active", false, none⟩

/-- A concrete state for witnesses: the demo rooms plus `sampleRoom`;
`"H"`, `"L"`, `"Z"` are connected; `"H"` and `"L"` are in the room's
channel and `"Z"` is in the lobby. -/
def sampleState : ServerState :=
  { rooms := demoRooms 0 ++ [sampleRoom]
    connected := ["H", "L", "Z"]
    chans := [("H", "room-000042"), ("L", "room-000042"), ("Z", "lobby")] }

/-- The startup state with one connected socket `"A"`. -/
def c1Start : ServerState := { initState 0 with connected := ["A"] }

/-- Trace in which `"A"` creates a room and then issues `join-room` on the very room it
hosts. -/
def c1Trace : List Op :=
  [Op.createRoom "A" 1700000111222 none, Op.joinRoom "A" "room-111222"]

/-- Two `create-room` requests arriving in the same millisecond. -/
def c4Trace : List Op :=
  [Op.createRoom "A" 1700001222333 none, Op.createRoom "B" 1700001222333 none]

/-! ### Lemmas about the set and map primitives -/

theorem mem_setAdd {l : List String} {x y : String} :
    x ∈ setAdd l y ↔ x ∈ l ∨ x = y := by
  unfold setAdd
  by_cases h : y ∈ l
  · simp only [if_pos h]
    constructor
    · exact Or.inl
    · rintro (hx | rfl)
      · exact hx
      · exact h
  · simp [if_neg h]

theorem setAdd_eq_self {l : List String} {x : String} (h : x ∈ l) :
    setAdd l x = l := by
  unfold setAdd
  simp [h]

theorem setDelete_sub {l : List String} {x y : String} (h : x ∈ setDelete l y) :
    x ∈ l :=
  (List.mem_filter.mp h).1

theorem setDelete_eq_self {l : List String} {x : String} (h : x ∉ l) :
    setDelete l x = l := by
  unfold setDelete
  apply List.filter_eq_self.mpr
  intro a ha
  simp only [decide_eq_true_eq]
  rintro rfl
  exact h ha

theorem mapGet_id {rooms : List Room} {rid : String} {room : Room}
    (h : mapGet rooms rid = some room) : room.id = rid := by
  have := List.find?_some h
  simpa using this

theorem mapGet_mem {rooms : List Room} {rid : String} {room : Room}
    (h : mapGet rooms rid = some room) : room ∈ rooms :=
  List.mem_of_find?_eq_some h

theorem mapGet_cons_pos {q : Room} {qs : List Room} {rid : String} (h : q.id = rid) :
    mapGet (q :: qs) rid = some q := by
  unfold mapGet
  rw [List.find?_cons_of_pos]
  simpa using h

theorem mapGet_cons_neg {q : Room} {qs : List Room} {rid : String} (h : q.id ≠ rid) :
    mapGet (q :: qs) rid = mapGet qs rid := by
  unfold mapGet
  rw [List.find?_cons_of_neg]
  simpa using h

theorem mapGet_mapSet_self (rooms : List Room) (r : Room) :
    mapGet (mapSet rooms r) r.id = some r := by
  induction rooms with
  | nil => exact mapGet_cons_pos rfl
  | cons q qs ih =>
    by_cases h : q.id = r.id
    · rw [mapSet, if_pos h]
      exact mapGet_cons_pos rfl
    · rw [mapSet, if_neg h, mapGet_cons_neg h]
      exact ih

theorem mapGet_mapSet_ne {rooms : List Room} {r : Room} {i : String} (h : r.id ≠ i) :
    mapGet (mapSet rooms r) i = mapGet rooms i := by
  induction rooms with
  | nil =>
    rw [mapSet, mapGet_cons_neg h]
  | cons q qs ih =>
    by_cases hq : q.id = r.id
    · rw [mapSet, if_pos hq, mapGet_cons_neg h, mapGet_cons_neg (hq ▸ h)]
    · rw [mapSet, if_neg hq]
      by_cases hi : q.id = i
      · rw [mapGet_cons_pos hi, mapGet_cons_pos hi]
      · rw [mapGet_cons_neg hi, mapGet_cons_neg hi]
        exact ih

theorem mapSet_self {rooms : List Room} {rid : String} {room : Room}
    (h : mapGet rooms rid = some room) : mapSet rooms room = rooms := by
  induction rooms with
  | nil => simp [mapGet, List.find?] at h
  | cons q qs ih =>
    by_cases hq : q.id = rid
    · rw [mapGet_cons_pos hq] at h
      cases h
      rw [mapSet, if_pos rfl]
    · rw [mapGet_cons_neg hq] at h
      have hid : room.id = rid := mapGet_id h
      rw [mapSet, if_neg (by rw [hid]; exact hq)]
      rw [ih h]

theorem mem_mapSet {rooms : List Room} {r x : Room} (h : x ∈ mapSet rooms r) :
    x = r ∨ x ∈ rooms := by
  induction rooms with
  | nil => simpa [mapSet] using h
  | cons q qs ih =>
    by_cases hq : q.id = r.id
    · rw [mapSet, if_pos hq] at h
      rcases List.mem_cons.mp h with rfl | hx
      · exact Or.inl rfl
      · exact Or.inr (List.mem_cons_of_mem _ hx)
    · rw [mapSet, if_neg hq] at h
      rcases List.mem_cons.mp h with rfl | hx
      · exact Or.inr (List.mem_cons_self _ _)
      · rcases ih hx with h1 | h2
        · exact Or.inl h1
        · exact Or.inr (List.mem_cons_of_mem _ h2)

theorem mem_mapDelete {rooms : List Room} {rid : String} {x : Room}
    (h : x ∈ mapDelete rooms rid) : x ∈ rooms :=
  (List.mem_filter.mp h).1

theorem mapGet_mapDelete_self (rooms : List Room) (rid : String) :
    mapGet (mapDelete rooms rid) rid = none := by
  unfold mapGet
  rw [List.find?_eq_none]
  intro r hr
  have h2 := (List.mem_filter.mp hr).2
  simp only [decide_eq_true_eq] at h2 ⊢
  exact h2

theorem mapGet_mapDelete_ne {rooms : List Room} {rid i : String} (h : i ≠ rid) :
    mapGet (mapDelete rooms rid) i = mapGet rooms i := by
  induction rooms with
  | nil => rfl
  | cons q qs ih =>
    by_cases hq : q.id = rid
    · have : mapDelete (q :: qs) rid = mapDelete qs rid := by
        unfold mapDelete
        rw [List.filter_cons_of_neg]
        simpa using hq
      rw [this, mapGet_cons_neg (by rw [hq]; exact fun e => h e.symm)]
      exact ih
    · have : mapDelete (q :: qs) rid = q :: mapDelete qs rid := by
        unfold mapDelete
        rw [List.filter_cons_of_pos]
        simpa using hq
      rw [this]
      by_cases hi : q.id = i
      · rw [mapGet_cons_pos hi, mapGet_cons_pos hi]
      · rw [mapGet_cons_neg hi, mapGet_cons_neg hi]
        exact ih

theorem not_mem_mapDelete_ids {rooms : List Room} {rid : String} :
    rid ∉ (mapDelete rooms rid).map Room.id := by
  intro h
  rcases List.mem_map.mp h with ⟨r, hr, hid⟩
  have h2 := (List.mem_filter.mp hr).2
  simp only [decide_eq_true_eq] at h2
  exact h2 hid

/-! ### Characterizations of the handlers, and frame lemmas -/

theorem chanJoin_rooms (st : ServerState) (p c : String) :
    (chanJoin st p c).rooms = st.rooms := by
  unfold chanJoin
  split <;> rfl

theorem chanJoin_connected (st : ServerState) (p c : String) :
    (chanJoin st p c).connected = st.connected := by
  unfold chanJoin
  split <;> rfl

theorem hlr_none {st : ServerState} {sock rid : String} {now : Nat}
    (h : mapGet st.rooms rid = none) :
    handleLeaveRoom st sock rid now = (st, []) := by
  unfold handleLeaveRoom
  rw [h]

theorem hlr_host {st : ServerState} {sock rid : String} {now : Nat} {room : Room}
    (h : mapGet st.rooms rid = some room)
    (hd : room.isDemo = false) (hh : room.hostId = sock) :
    handleLeaveRoom st sock rid now =
      ({ st with rooms := mapDelete st.rooms rid },
       [emitTo st rid (Event.newMessage (sysDestroyMsg now)),
        broadcastLobbyUpdate { st with rooms := mapDelete st.rooms rid }]) := by
  unfold handleLeaveRoom
  rw [h]
  simp [hd, hh]

theorem hlr_not_host {st : ServerState} {sock rid : String} {now : Nat} {room : Room}
    (h : mapGet st.rooms rid = some room)
    (hh : room.isDemo = true ∨ room.hostId ≠ sock) :
    handleLeaveRoom st sock rid now =
      (let st2 := chanLeave
        { st with rooms := mapSet st.rooms { room with listeners := setDelete room.listeners sock } }
        sock rid
       (st2, [emitTo st2 rid (Event.userLeft sock), broadcastLobbyUpdate st2])) := by
  unfold handleLeaveRoom
  rw [h]
  rcases hh with hd | hns
  · simp [hd]
  · by_cases hd : room.isDemo <;> simp [hd, hns]

theorem hlr_connected (st : ServerState) (sock rid : String) (now : Nat) :
    (handleLeaveRoom st sock rid now).1.connected = st.connected := by
  cases h : mapGet st.rooms rid with
  | none => rw [hlr_none h]
  | some room =>
    by_cases hh : room.isDemo = false ∧ room.hostId = sock
    · rw [hlr_host h hh.1 hh.2]
    · rw [hlr_not_host h (by
        rcases Decidable.not_and_iff_or_not.mp hh with h1 | h2
        · exact Or.inl (by revert h1; cases room.isDemo <;> simp)
        · exact Or.inr h2)]
      rfl

theorem hlr_chans_ne {st : ServerState} {sock rid : String} {now : Nat} {p c : String}
    (hc : c ≠ rid) :
    ((p, c) ∈ (handleLeaveRoom st sock rid now).1.chans ↔ (p, c) ∈ st.chans) := by
  have hne : (p, c) ≠ (sock, rid) := by
    intro he
    exact hc (congrArg Prod.snd he)
  cases h : mapGet st.rooms rid with
  | none => rw [hlr_none h]
  | some room =>
    by_cases hh : room.isDemo = false ∧ room.hostId = sock
    · rw [hlr_host h hh.1 hh.2]
    · rw [hlr_not_host h (by
        rcases Decidable.not_and_iff_or_not.mp hh with h1 | h2
        · exact Or.inl (by revert h1; cases room.isDemo <;> simp)
        · exact Or.inr h2)]
      show (p, c) ∈ (chanLeave _ sock rid).chans ↔ _
      unfold chanLeave
      simp only [List.mem_filter, decide_eq_true_eq]
      exact ⟨fun ⟨h1, _⟩ => h1, fun h1 => ⟨h1, hne⟩⟩

theorem hlr_rooms_ne {st : ServerState} {sock rid : String} {now : Nat} {i : String}
    (hi : i ≠ rid) :
    mapGet (handleLeaveRoom st sock rid now).1.rooms i = mapGet st.rooms i := by
  cases h : mapGet st.rooms rid with
  | none => rw [hlr_none h]
  | some room =>
    have hid : room.id = rid := mapGet_id h
    by_cases hh : room.isDemo = false ∧ room.hostId = sock
    · rw [hlr_host h hh.1 hh.2]
      exact mapGet_mapDelete_ne hi
    · rw [hlr_not_host h (by
        rcases Decidable.not_and_iff_or_not.mp hh with h1 | h2
        · exact Or.inl (by revert h1; cases room.isDemo <;> simp)
        · exact Or.inr h2)]
      show mapGet (mapSet st.rooms _) i = _
      exact mapGet_mapSet_ne (by simpa [hid] using fun e => hi e.symm)

theorem hlr_sysTo_ne {st : ServerState} {sock rid : String} {now : Nat} {r2 : String}
    (hne : r2 ≠ rid) :
    (handleLeaveRoom st sock rid now).2.filter (sysTo r2) = [] := by
  cases h : mapGet st.rooms rid with
  | none =>
    rw [hlr_none h]
    rfl
  | some room =>
    by_cases hh : room.isDemo = false ∧ room.hostId = sock
    · rw [hlr_host h hh.1 hh.2]
      simp [sysTo, isSysChat, emitTo, broadcastLobbyUpdate, sysDestroyMsg,
        Ne.symm hne]
    · rw [hlr_not_host h (by
        rcases Decidable.not_and_iff_or_not.mp hh with h1 | h2
        · exact Or.inl (by revert h1; cases room.isDemo <;> simp)
        · exact Or.inr h2)]
      show List.filter (sysTo r2)
        [emitTo _ rid (Event.userLeft sock), broadcastLobbyUpdate _] = []
      have h1 : ∀ s : ServerState, sysTo r2 (emitTo s rid (Event.userLeft sock)) = false := by
        intro s
        simp [sysTo, emitTo, isSysChat]
      have h2 : ∀ s : ServerState, sysTo r2 (broadcastLobbyUpdate s) = false := by
        intro s
        simp [sysTo, emitTo, isSysChat, broadcastLobbyUpdate]
      simp [List.filter, h1, h2]

theorem recipients_congr {st' st : ServerState} {c : String}
    (hconn : st'.connected = st.connected)
    (hch : ∀ p, (p, c) ∈ st'.chans ↔ (p, c) ∈ st.chans) :
    recipients st' c = recipients st c := by
  unfold recipients
  rw [hconn]
  exact List.filter_congr fun p _ =>
    decide_eq_decide.mpr (or_congr Iff.rfl (hch p))

/-! ### The disconnect scan -/

theorem scanRooms_nil {st : ServerState} {sock : String} {now : Nat} :
    scanRooms st sock now [] = (st, []) := rfl

theorem scanRooms_cons_none {st : ServerState} {sock i : String} {now : Nat}
    {rest : List String} (h : mapGet st.rooms i = none) :
    scanRooms st sock now (i :: rest) = scanRooms st sock now rest := by
  conv_lhs => unfold scanRooms
  rw [h]

theorem scanRooms_cons_skip {st : ServerState} {sock i : String} {now : Nat}
    {rest : List String} {room : Room} (h : mapGet st.rooms i = some room)
    (hc : ¬(room.hostId = sock ∨ sock ∈ room.listeners)) :
    scanRooms st sock now (i :: rest) = scanRooms st sock now rest := by
  conv_lhs => unfold scanRooms
  rw [h]
  dsimp only
  rw [if_neg hc]

theorem scanRooms_cons_hit {st : ServerState} {sock i : String} {now : Nat}
    {rest : List String} {room : Room} (h : mapGet st.rooms i = some room)
    (hc : room.hostId = sock ∨ sock ∈ room.listeners) :
    scanRooms st sock now (i :: rest) =
      ((scanRooms (handleLeaveRoom st sock i now).1 sock now rest).1,
       (handleLeaveRoom st sock i now).2 ++
         (scanRooms (handleLeaveRoom st sock i now).1 sock now rest).2) := by
  conv_lhs => unfold scanRooms
  rw [h]
  dsimp only
  rw [if_pos hc]

theorem scan_preserve (P : ServerState → Prop) {sock : String} {now : Nat}
    (hP : ∀ s rid, P s → P (handleLeaveRoom s sock rid now).1) :
    ∀ (ids : List String) (st : ServerState), P st → P (scanRooms st sock now ids).1 := by
  intro ids
  induction ids with
  | nil =>
    intro st h
    exact h
  | cons i rest ih =>
    intro st h
    cases hm : mapGet st.rooms i with
    | none =>
      rw [scanRooms_cons_none hm]
      exact ih st h
    | some room =>
      by_cases hc : room.hostId = sock ∨ sock ∈ room.listeners
      · rw [scanRooms_cons_hit hm hc]
        exact ih _ (hP st i h)
      · rw [scanRooms_cons_skip hm hc]
        exact ih st h

theorem scan_noop {sock : String} {now : Nat} :
    ∀ (ids : List String) (st : ServerState),
      (∀ r ∈ st.rooms, ¬(r.hostId = sock ∨ sock ∈ r.listeners)) →
      scanRooms st sock now ids = (st, []) := by
  intro ids
  induction ids with
  | nil =>
    intro st _
    rfl
  | cons i rest ih =>
    intro st h
    cases hm : mapGet st.rooms i with
    | none =>
      rw [scanRooms_cons_none hm]
      exact ih st h
    | some room =>
      rw [scanRooms_cons_skip hm (h room (mapGet_mem hm))]
      exact ih st h

theorem scan_deleted {sock : String} {now : Nat} {rid : String} :
    ∀ (ids : List String) (st : ServerState), mapGet st.rooms rid = none →
      mapGet (scanRooms st sock now ids).1.rooms rid = none ∧
      (scanRooms st sock now ids).2.filter (sysTo rid) = [] := by
  intro ids
  induction ids with
  | nil =>
    intro st h
    exact ⟨h, rfl⟩
  | cons i rest ih =>
    intro st h
    by_cases hi : i = rid
    · subst hi
      rw [scanRooms_cons_none h]
      exact ih st h
    · cases hm : mapGet st.rooms i with
      | none =>
        rw [scanRooms_cons_none hm]
        exact ih st h
      | some room =>
        by_cases hc : room.hostId = sock ∨ sock ∈ room.listeners
        · rw [scanRooms_cons_hit hm hc]
          have h' : mapGet (handleLeaveRoom st sock i now).1.rooms rid = none := by
            rw [hlr_rooms_ne (fun e => hi e.symm)]
            exact h
          obtain ⟨g1, g2⟩ := ih _ h'
          refine ⟨g1, ?_⟩
          rw [List.filter_append, hlr_sysTo_ne (fun e => hi e.symm), g2]
          rfl
        · rw [scanRooms_cons_skip hm hc]
          exact ih st h

theorem scan_main {sock : String} {now : Nat} {rid : String} {room : Room}
    (hd : room.isDemo = false) (hh : room.hostId = sock) :
    ∀ (ids : List String) (st : ServerState), rid ∈ ids →
      mapGet st.rooms rid = some room →
      mapGet (scanRooms st sock now ids).1.rooms rid = none ∧
      (scanRooms st sock now ids).2.filter (sysTo rid) =
        [⟨rid, recipients st rid, Event.newMessage (sysDestroyMsg now)⟩] := by
  intro ids
  induction ids with
  | nil =>
    intro st hmem _
    cases hmem
  | cons i rest ih =>
    intro st hmem h
    by_cases hi : i = rid
    · subst hi
      rw [scanRooms_cons_hit h (Or.inl hh)]
      rw [hlr_host h hd hh]
      have hdel : mapGet ({ st with rooms := mapDelete st.rooms i } : ServerState).rooms i = none :=
        mapGet_mapDelete_self st.rooms i
      obtain ⟨g1, g2⟩ := scan_deleted rest _ hdel
      refine ⟨g1, ?_⟩
      dsimp only
      rw [List.filter_append, g2, List.append_nil]
      have hsys : sysTo i (emitTo st i (Event.newMessage (sysDestroyMsg now))) = true := by
        simp [sysTo, emitTo, isSysChat, sysDestroyMsg]
      have hlob : sysTo i (broadcastLobbyUpdate { st with rooms := mapDelete st.rooms i }) = false := by
        simp [sysTo, emitTo, isSysChat, broadcastLobbyUpdate]
      rw [List.filter_cons_of_pos hsys, List.filter_cons_of_neg (by simp [hlob])]
      rfl
    · have hmem' : rid ∈ rest := by
        rcases List.mem_cons.mp hmem with h1 | h1
        · exact absurd h1.symm hi
        · exact h1
      cases hm : mapGet st.rooms i with
      | none =>
        rw [scanRooms_cons_none hm]
        exact ih st hmem' h
      | some room2 =>
        by_cases hc : room2.hostId = sock ∨ sock ∈ room2.listeners
        · rw [scanRooms_cons_hit hm hc]
          have h' : mapGet (handleLeaveRoom st sock i now).1.rooms rid = some room := by
            rw [hlr_rooms_ne (fun e => hi e.symm)]
            exact h
          have hrec : recipients (handleLeaveRoom st sock i now).1 rid = recipients st rid :=
            recipients_congr (hlr_connected st sock i now)
              (fun p => hlr_chans_ne (fun e => hi e.symm))
          obtain ⟨g1, g2⟩ := ih _ hmem' h'
          refine ⟨g1, ?_⟩
          rw [List.filter_append, hlr_sysTo_ne (fun e => hi e.symm), g2, hrec]
          rfl
        · rw [scanRooms_cons_skip hm hc]
          exact ih st hmem' h

/-! ### More helper lemmas -/

theorem not_host_of_not_both {room : Room} {sock : String}
    (hh : ¬(room.isDemo = false ∧ room.hostId = sock)) :
    room.isDemo = true ∨ room.hostId ≠ sock := by
  rcases Decidable.not_and_iff_or_not.mp hh with h1 | h2
  · exact Or.inl (by revert h1; cases room.isDemo <;> simp)
  · exact Or.inr h2

theorem joinRoom_notfound {st : ServerState} {s rid : String}
    (h : mapGet st.rooms rid = none) :
    joinRoom st s rid = (st, [], JoinAck.failure "Room not found or signal lost.") := by
  unfold joinRoom
  rw [h]

theorem joinRoom_found {st : ServerState} {s rid : String} {room : Room}
    (h : mapGet st.rooms rid = some room) :
    joinRoom st s rid =
      (let st2 : ServerState :=
        { chanJoin st s rid with
          rooms := mapSet (chanJoin st s rid).rooms
            { room with listeners := setAdd room.listeners s } }
       (st2,
        [emitTo st2 room.hostId (Event.userJoined s), broadcastLobbyUpdate st2],
        JoinAck.success (Room.info { room with listeners := setAdd room.listeners s }))) := by
  unfold joinRoom
  rw [h]

theorem mem_recipients {st : ServerState} {p c : String}
    (h1 : p ∈ st.connected) (h2 : p = c ∨ (p, c) ∈ st.chans) :
    p ∈ recipients st c :=
  List.mem_filter.mpr ⟨h1, by simpa using h2⟩

theorem not_mem_snapshot_ids {st : ServerState} {rid : String}
    (h : mapGet st.rooms rid = none) :
    rid ∉ (roomListSnapshot st).map RoomInfo.id := by
  intro hmem
  rcases List.mem_map.mp hmem with ⟨ri, hri, hid⟩
  rcases List.mem_map.mp hri with ⟨r, hr, rfl⟩
  have h2 := List.find?_eq_none.mp h r hr
  simp only [decide_eq_true_eq] at h2
  exact h2 hid

theorem sysNoticesTo_single {p rid : String} {ds : List Delivery} {d : Delivery}
    (hf : ds.filter (sysTo rid) = [d]) (hp : p ∈ d.recipients) :
    sysNoticesTo p rid ds = 1 := by
  unfold sysNoticesTo
  rw [hf, List.filter_cons_of_pos (by simpa using hp)]
  rfl

theorem mem_connected_dropSock {st : ServerState} {p sock : String}
    (h1 : p ∈ st.connected) (h2 : p ≠ sock) :
    p ∈ (dropSock st sock).connected :=
  List.mem_filter.mpr ⟨h1, by simpa using h2⟩

theorem mem_chans_dropSock {st : ServerState} {p c sock : String}
    (h1 : (p, c) ∈ st.chans) (h2 : p ≠ sock) :
    (p, c) ∈ (dropSock st sock).chans :=
  List.mem_filter.mpr ⟨h1, by simpa using h2⟩

theorem disconnect_eq (st : ServerState) (sock : String) (now : Nat) :
    disconnect st sock now =
      scanRooms (dropSock st sock) sock now ((dropSock st sock).rooms.map Room.id) := rfl

/-! ### Preservation of the invariants -/

theorem hostInv_hlr {st : ServerState} {sock rid : String} {now : Nat}
    (h : HostInv st) : HostInv (handleLeaveRoom st sock rid now).1 := by
  cases hm : mapGet st.rooms rid with
  | none =>
    rw [hlr_none hm]
    exact h
  | some room =>
    by_cases hb : room.isDemo = false ∧ room.hostId = sock
    · rw [hlr_host hm hb.1 hb.2]
      intro r hr
      exact h r (mem_mapDelete hr)
    · rw [hlr_not_host hm (not_host_of_not_both hb)]
      intro r hr
      have hr' : r ∈ mapSet st.rooms { room with listeners := setDelete room.listeners sock } := hr
      rcases mem_mapSet hr' with rfl | h2
      · intro hin
        exact h room (mapGet_mem hm) (setDelete_sub hin)
      · exact h r h2

theorem hostInv_scan {sock : String} {now : Nat} {ids : List String} {st : ServerState}
    (h : HostInv st) : HostInv (scanRooms st sock now ids).1 :=
  scan_preserve HostInv (fun _ _ h' => hostInv_hlr h') ids st h

theorem hostInv_applyOp {st : ServerState} {op : Op}
    (h : HostInv st) (hok : okOp st op = true) : HostInv (applyOp st op).1 := by
  cases op with
  | createRoom s now name =>
    have he : (applyOp st (Op.createRoom s now name)).1.rooms =
        mapSet st.rooms (mkRoom s now name) := by
      show (chanJoin { st with rooms := mapSet st.rooms (mkRoom s now name) } s
        (mkRoom s now name).id).rooms = _
      rw [chanJoin_rooms]
    intro r hr
    rw [he] at hr
    rcases mem_mapSet hr with rfl | h2
    · simp [mkRoom]
    · exact h r h2
  | joinRoom s rid =>
    cases hm : mapGet st.rooms rid with
    | none =>
      have he : (applyOp st (Op.joinRoom s rid)).1 = st := by
        show (joinRoom st s rid).1 = st
        rw [joinRoom_notfound hm]
      rw [he]
      exact h
    | some room =>
      have hne : room.hostId ≠ s := by
        intro he
        have hall := List.all_eq_true.mp
          (show st.rooms.all (fun r => !(decide (r.id = rid) && decide (r.hostId = s))) = true
            from hok) room (mapGet_mem hm)
        simp [mapGet_id hm, he] at hall
      have he : (applyOp st (Op.joinRoom s rid)).1.rooms =
          mapSet st.rooms { room with listeners := setAdd room.listeners s } := by
        show (joinRoom st s rid).1.rooms = _
        rw [joinRoom_found hm]
        show mapSet (chanJoin st s rid).rooms _ = _
        rw [chanJoin_rooms]
      intro r hr
      rw [he] at hr
      rcases mem_mapSet hr with rfl | h2
      · intro hin
        rcases mem_setAdd.mp hin with h3 | h3
        · exact h room (mapGet_mem hm) h3
        · exact hne h3
      · exact h r h2
  | leaveRoom s rid now => exact hostInv_hlr h
  | disconnect s now =>
    have hds : HostInv (dropSock st s) := fun r hr => h r hr
    exact hostInv_scan hds

theorem demoP_joinRoom {d : Room} {st : ServerState} {s rid : String}
    (h : DemoP d st) : DemoP d (joinRoom st s rid).1 := by
  obtain ⟨l, hl⟩ := h
  cases hm : mapGet st.rooms rid with
  | none =>
    rw [joinRoom_notfound hm]
    exact ⟨l, hl⟩
  | some room =>
    rw [joinRoom_found hm]
    by_cases hid : rid = d.id
    · subst hid
      rw [hl] at hm
      injection hm with hm
      subst hm
      refine ⟨setAdd l s, ?_⟩
      show mapGet (mapSet (chanJoin st s d.id).rooms _) d.id = _
      rw [chanJoin_rooms]
      exact mapGet_mapSet_self st.rooms { d with listeners := setAdd l s }
    · refine ⟨l, ?_⟩
      show mapGet (mapSet (chanJoin st s rid).rooms _) d.id = _
      rw [chanJoin_rooms]
      rw [mapGet_mapSet_ne (show ({ room with listeners := setAdd room.listeners s } : Room).id ≠ d.id by
        show room.id ≠ d.id
        rw [mapGet_id hm]
        exact hid)]
      exact hl

theorem demoP_hlr {d : Room} {st : ServerState} {sock rid : String} {now : Nat}
    (hd : d.isDemo = true) (h : DemoP d st) :
    DemoP d (handleLeaveRoom st sock rid now).1 := by
  obtain ⟨l, hl⟩ := h
  by_cases hid : rid = d.id
  · subst hid
    rw [hlr_not_host hl (Or.inl (show ({ d with listeners := l } : Room).isDemo = true from hd))]
    exact ⟨setDelete l sock,
      mapGet_mapSet_self st.rooms { d with listeners := setDelete l sock }⟩
  · refine ⟨l, ?_⟩
    rw [hlr_rooms_ne (fun e => hid e.symm)]
    exact hl

theorem demoP_run {d : Room} (hd : d.isDemo = true) :
    ∀ (ops : List Op) (st : ServerState), (∀ op ∈ ops, op.isCreate = false) →
      DemoP d st → DemoP d (run st ops) := by
  intro ops
  induction ops with
  | nil =>
    intro st _ h
    exact h
  | cons op rest ih =>
    intro st hall h
    have hstep : DemoP d (applyOp st op).1 := by
      cases op with
      | createRoom s now name =>
        have hc := hall _ (List.mem_cons_self _ _)
        simp [Op.isCreate] at hc
      | joinRoom s rid => exact demoP_joinRoom h
      | leaveRoom s rid now => exact demoP_hlr hd h
      | disconnect s now =>
        have hds : DemoP d (dropSock st s) := h
        exact scan_preserve (DemoP d) (fun _ _ h' => demoP_hlr hd h') _ _ hds
    exact ih _ (fun op' h' => hall op' (List.mem_cons_of_mem _ h')) hstep

theorem runCreates_preserves {i : String} :
    ∀ (cs : List CreateReq) (st : ServerState),
      (∀ c ∈ cs, freshRoomId c.now ≠ i) →
      mapGet (runCreates st cs).rooms i = mapGet st.rooms i := by
  intro cs
  induction cs with
  | nil =>
    intro st _
    rfl
  | cons c0 rest ih =>
    intro st hall
    have hstep : mapGet (applyOp st (Op.createRoom c0.sock c0.now c0.name)).1.rooms i =
        mapGet st.rooms i := by
      show mapGet (chanJoin { st with rooms := mapSet st.rooms (mkRoom c0.sock c0.now c0.name) }
        c0.sock (mkRoom c0.sock c0.now c0.name).id).rooms i = _
      rw [chanJoin_rooms]
      exact mapGet_mapSet_ne (hall c0 (List.mem_cons_self _ _))
    show mapGet (runCreates (applyOp st (Op.createRoom c0.sock c0.now c0.name)).1 rest).rooms i = _
    rw [ih _ (fun c h => hall c (List.mem_cons_of_mem _ h)), hstep]

/-! ### The claims -/

/-- C1 counterexample: the claim as stated fails on the code — a host
that issues `join-room` on the room it hosts is added to that room's
listener set. After `"A"` creates `room-111222` and then joins it, the
invariant `HostInv` is violated. -/
theorem C1_counterexample_host_in_listeners :
    ¬ HostInv (run c1Start c1Trace) := by decide

/-- C1 (amended): along any trace of create/join/leave/disconnect ops in
which no host issues `join-room` on the room it hosts, no room's listener
set ever contains that room's host identifier. -/
theorem C1_host_not_listener (st : ServerState) (ops : List Op)
    (hinv : HostInv st) (hsj : noSelfJoin st ops = true) :
    HostInv (run st ops) := by
  induction ops generalizing st with
  | nil => exact hinv
  | cons op rest ih =>
    rw [show noSelfJoin st (op :: rest) = (okOp st op && noSelfJoin (applyOp st op).1 rest)
      from rfl, Bool.and_eq_true] at hsj
    exact ih _ (hostInv_applyOp hinv hsj.1) hsj.2

/-- C1 witness: a concrete self-join-free trace keeps the invariant. -/
theorem C1_host_not_listener_witness :
    HostInv (run sampleState
      [Op.joinRoom "Z" "room-000042", Op.leaveRoom "H" "room-000042" 50,
       Op.disconnect "Z" 60]) :=
  C1_host_not_listener sampleState _ (by decide) (by decide)

/-- C2: `join-room` on an unknown identifier returns the failure ack and
changes nothing — no crash, no created room; on a known room it adds the
requester to the listener set, notifies the host with the requester's
identifier, acks a success snapshot carrying the current listener count,
and republishes the lobby. -/
theorem C2_join_room_result (st : ServerState) (s rid : String) :
    (mapGet st.rooms rid = none →
      joinRoom st s rid = (st, [], JoinAck.failure "Room not found or signal lost."))
    ∧ (∀ room, mapGet st.rooms rid = some room →
        mapGet (joinRoom st s rid).1.rooms rid =
          some { room with listeners := setAdd room.listeners s }
        ∧ (joinRoom st s rid).2.2 =
            JoinAck.success (Room.info { room with listeners := setAdd room.listeners s })
        ∧ (joinRoom st s rid).2.1.map (fun d => (d.dest, d.event)) =
            [(room.hostId, Event.userJoined s),
             ("lobby", Event.roomList (roomListSnapshot (joinRoom st s rid).1))]) := by
  constructor
  · intro h
    exact joinRoom_notfound h
  · intro room hm
    rw [joinRoom_found hm]
    refine ⟨?_, rfl, rfl⟩
    show mapGet (mapSet (chanJoin st s rid).rooms _) rid = _
    rw [chanJoin_rooms, ← mapGet_id hm]
    exact mapGet_mapSet_self st.rooms { room with listeners := setAdd room.listeners s }

/-- C2 witness: evaluated in the sample state, once for a missing id and
once for the present user room. -/
theorem C2_join_room_witness :
    joinRoom sampleState "Z" "room-nope" =
      (sampleState, [], JoinAck.failure "Room not found or signal lost.")
    ∧ mapGet (joinRoom sampleState "Z" "room-000042").1.rooms "room-000042" =
        some { sampleRoom with listeners := setAdd sampleRoom.listeners "Z" } :=
  ⟨(C2_join_room_result sampleState "Z" "room-nope").1 (by decide),
   ((C2_join_room_result sampleState "Z" "room-000042").2 sampleRoom (by decide)).1⟩

/-- C3: when the host of a non-demo room leaves or disconnects, the
room's channel gets exactly one system chat notice (system flag set,
`SYSTEM` sender), every connected member of that channel receives it
exactly once, the room leaves the store, and afterwards the room list
omits it and any `join-room` on that id yields the not-found ack. -/
theorem C3_host_departure (st : ServerState) (h rid : String) (now : Nat) (room : Room)
    (hm : mapGet st.rooms rid = some room)
    (hdemo : room.isDemo = false) (hhost : room.hostId = h) :
    (handleLeaveRoom st h rid now =
       ({ st with rooms := mapDelete st.rooms rid },
        [⟨rid, recipients st rid, Event.newMessage (sysDestroyMsg now)⟩,
         broadcastLobbyUpdate { st with rooms := mapDelete st.rooms rid }])
     ∧ mapGet (handleLeaveRoom st h rid now).1.rooms rid = none
     ∧ rid ∉ (roomListSnapshot (handleLeaveRoom st h rid now).1).map RoomInfo.id
     ∧ (∀ z, (joinRoom (handleLeaveRoom st h rid now).1 z rid).2.2 =
         JoinAck.failure "Room not found or signal lost.")
     ∧ (∀ p, (p = h ∨ p ∈ room.listeners) → p ∈ st.connected → (p, rid) ∈ st.chans →
         sysNoticesTo p rid (handleLeaveRoom st h rid now).2 = 1))
    ∧ (mapGet (disconnect st h now).1.rooms rid = none
     ∧ rid ∉ (roomListSnapshot (disconnect st h now).1).map RoomInfo.id
     ∧ (∀ z, (joinRoom (disconnect st h now).1 z rid).2.2 =
         JoinAck.failure "Room not found or signal lost.")
     ∧ (disconnect st h now).2.filter (sysTo rid) =
         [⟨rid, recipients (dropSock st h) rid, Event.newMessage (sysDestroyMsg now)⟩]
     ∧ (∀ p ∈ room.listeners, p ∈ st.connected → p ≠ h → (p, rid) ∈ st.chans →
         sysNoticesTo p rid (disconnect st h now).2 = 1)) := by
  have heq := @hlr_host st h rid now room hm hdemo hhost
  have hdel : mapGet (handleLeaveRoom st h rid now).1.rooms rid = none := by
    rw [heq]
    exact mapGet_mapDelete_self st.rooms rid
  have hfl : (handleLeaveRoom st h rid now).2.filter (sysTo rid) =
      [⟨rid, recipients st rid, Event.newMessage (sysDestroyMsg now)⟩] := by
    rw [heq]
    have hsys : sysTo rid (emitTo st rid (Event.newMessage (sysDestroyMsg now))) = true := by
      simp [sysTo, emitTo, isSysChat, sysDestroyMsg]
    have hlob : ¬ sysTo rid
        (broadcastLobbyUpdate { st with rooms := mapDelete st.rooms rid }) = true := by
      simp [sysTo, emitTo, isSysChat, broadcastLobbyUpdate]
    rw [show (({ st with rooms := mapDelete st.rooms rid } : ServerState),
        [emitTo st rid (Event.newMessage (sysDestroyMsg now)),
         broadcastLobbyUpdate { st with rooms := mapDelete st.rooms rid }]).2 =
      [emitTo st rid (Event.newMessage (sysDestroyMsg now)),
       broadcastLobbyUpdate { st with rooms := mapDelete st.rooms rid }] from rfl]
    rw [List.filter_cons_of_pos hsys, List.filter_cons_of_neg hlob]
    rfl
  refine ⟨⟨heq, hdel, not_mem_snapshot_ids hdel,
    fun z => by rw [joinRoom_notfound hdel], ?_⟩, ?_⟩
  · intro p _ hpc hpch
    exact sysNoticesTo_single hfl (mem_recipients hpc (Or.inr hpch))
  · have hm0 : mapGet (dropSock st h).rooms rid = some room := hm
    have hmem : rid ∈ (dropSock st h).rooms.map Room.id :=
      List.mem_map.mpr ⟨room, mapGet_mem hm0, mapGet_id hm0⟩
    obtain ⟨g1, g2⟩ := scan_main hdemo hhost
      ((dropSock st h).rooms.map Room.id) (dropSock st h) hmem hm0
    have hd1 : mapGet (disconnect st h now).1.rooms rid = none := by
      rw [disconnect_eq]
      exact g1
    have hd2 : (disconnect st h now).2.filter (sysTo rid) =
        [⟨rid, recipients (dropSock st h) rid, Event.newMessage (sysDestroyMsg now)⟩] := by
      rw [disconnect_eq]
      exact g2
    refine ⟨hd1, not_mem_snapshot_ids hd1,
      fun z => by rw [joinRoom_notfound hd1], hd2, ?_⟩
    intro p hpl hpc hph hpch
    exact sysNoticesTo_single hd2
      (mem_recipients (mem_connected_dropSock hpc hph) (Or.inr (mem_chans_dropSock hpch hph)))

/-- C3 witness: in the sample state the host `"H"` disconnecting (or
leaving) destroys `room-000042` and listener `"L"` receives exactly one
system notice. -/
theorem C3_host_departure_witness :
    mapGet (disconnect sampleState "H" 99).1.rooms "room-000042" = none
    ∧ sysNoticesTo "L" "room-000042" (disconnect sampleState "H" 99).2 = 1
    ∧ sysNoticesTo "L" "room-000042" (handleLeaveRoom sampleState "H" "room-000042" 99).2 = 1 :=
  ⟨(C3_host_departure sampleState "H" "room-000042" 99 sampleRoom
      (by decide) (by decide) (by decide)).2.1,
   (C3_host_departure sampleState "H" "room-000042" 99 sampleRoom
      (by decide) (by decide) (by decide)).2.2.2.2.2 "L" (by decide) (by decide)
      (by decide) (by decide),
   (C3_host_departure sampleState "H" "room-000042" 99 sampleRoom
      (by decide) (by decide) (by decide)).1.2.2.2.2 "L" (Or.inr (by decide))
      (by decide) (by decide)⟩

/-- C4 counterexample: the claim fails on the code — identifiers are the
timestamp's last six digits, so two creations in the same millisecond
allocate the same identifier and the second `Map.set` overwrites the
first room: after `c4Trace` the store holds five rooms (four demo rooms
plus a single user room under `room-222333`, hosted by `"B"`) and no
room of `"A"` survives. -/
theorem C4_counterexample_id_collision :
    mapGet (run (initState 0) c4Trace).rooms "room-222333" =
      some (mkRoom "B" 1700001222333 none)
    ∧ (run (initState 0) c4Trace).rooms.length = 5
    ∧ ∀ r ∈ (run (initState 0) c4Trace).rooms, r.hostId ≠ "A" := by
  decide

/-- C4 (amended): room identifiers of a creation trace are pairwise
distinct and no room is overwritten provided the creation timestamps'
six-character suffixes are pairwise distinct: every request's room is
then still in the store under its own identifier after the whole trace. -/
theorem C4_ids_unique (cs : List CreateReq) (st : ServerState)
    (hnd : (cs.map fun c => freshRoomId c.now).Nodup) :
    ∀ c ∈ cs, mapGet (runCreates st cs).rooms (freshRoomId c.now) =
      some (mkRoom c.sock c.now c.name) := by
  revert hnd
  induction cs generalizing st with
  | nil =>
    intro _ c hc
    cases hc
  | cons c0 rest ih =>
    intro hnd
    rw [List.map_cons, List.nodup_cons] at hnd
    intro c hc
    rcases List.mem_cons.mp hc with rfl | hcr
    · show mapGet (runCreates (applyOp st (Op.createRoom c.sock c.now c.name)).1 rest).rooms _ = _
      rw [runCreates_preserves rest _
        (fun c' h' he => hnd.1 (by rw [← he]; exact List.mem_map.mpr ⟨c', h', rfl⟩))]
      show mapGet (chanJoin { st with rooms := mapSet st.rooms (mkRoom c.sock c.now c.name) }
        c.sock (mkRoom c.sock c.now c.name).id).rooms _ = _
      rw [chanJoin_rooms]
      exact mapGet_mapSet_self st.rooms (mkRoom c.sock c.now c.name)
    · exact ih _ hnd.2 c hcr

/-- C4 witness: two creations with distinct suffixes both survive. -/
theorem C4_ids_unique_witness :
    mapGet (runCreates (initState 0)
      [⟨"A", 1700000000001, none⟩, ⟨"B", 1700000000002, some "beats"⟩]).rooms
      (freshRoomId 1700000000001) = some (mkRoom "A" 1700000000001 none) :=
  C4_ids_unique _ (initState 0) (by decide) ⟨"A", 1700000000001, none⟩ (by decide)

/-- C5: demo rooms survive any sequence of join/leave/disconnect ops:
the room stored under a demo room's identifier keeps every field — the
`SYSTEM` host sentinel included — and only its listener set varies. -/
theorem C5_demo_rooms_persist (st : ServerState) (ops : List Op) (d : Room)
    (hops : ∀ op ∈ ops, op.isCreate = false) (hd : d.isDemo = true)
    (hm : mapGet st.rooms d.id = some d) :
    ∃ l, mapGet (run st ops).rooms d.id = some { d with listeners := l } :=
  demoP_run hd ops st hops ⟨d.listeners, hm⟩

/-- C5 witness: after a join and a disconnect the first demo room is
still present with host `SYSTEM` and all fields intact. -/
theorem C5_demo_rooms_witness :
    ∃ l, mapGet (run (initState 0)
        [Op.joinRoom "L" "demo-nts-1", Op.disconnect "L" 9]).rooms "demo-nts-1" =
      some { id := "demo-nts-1", name := "NTS Radio 1", hostId := "SYSTEM",
             listeners := l, createdAt := 0, status := "active", isDemo := true,
             streamUrl := some "https://stream-relay-geo.ntslive.net/stream" } :=
  C5_demo_rooms_persist (initState 0)
    [Op.joinRoom "L" "demo-nts-1", Op.disconnect "L" 9]
    ⟨"demo-nts-1", "NTS Radio 1", "SYSTEM", [], 0, "active", true,
      some "https://stream-relay-geo.ntslive.net/stream"⟩
    (by decide) (by decide) (by decide)

/-- C6: the `webrtc-signal` relay forwards kind and payload verbatim with
the sender's identifier attached, addressed to the target's personal
channel; it changes no state; the target receives it exactly when
connected; and when no connected socket matches the destination the
recipient set is empty — the message is silently dropped. -/
theorem C6_webrtc_relay (st : ServerState) (s ty pl tgt : String) :
    (webrtcSignal st s ty pl tgt).1 = st
    ∧ (webrtcSignal st s ty pl tgt).2 =
        [⟨tgt, recipients st tgt, Event.webrtcSignal ty pl s⟩]
    ∧ (tgt ∈ st.connected → tgt ∈ recipients st tgt)
    ∧ (tgt ∉ st.connected → tgt ∉ recipients st tgt)
    ∧ ((∀ p ∈ st.connected, p ≠ tgt ∧ (p, tgt) ∉ st.chans) → recipients st tgt = []) := by
  refine ⟨rfl, rfl, ?_, ?_, ?_⟩
  · intro h
    exact mem_recipients h (Or.inl rfl)
  · intro h hmem
    exact h (List.mem_filter.mp hmem).1
  · intro h
    refine List.filter_eq_nil_iff.mpr fun p hp => ?_
    rcases h p hp with ⟨h1, h2⟩
    simp only [decide_eq_true_eq]
    rintro (h3 | h3)
    · exact h1 h3
    · exact h2 h3

/-- C6 witness: the connected `"L"` receives a signal addressed to it;
nobody receives a signal addressed to the unknown identifier `"Q"`. -/
theorem C6_webrtc_relay_witness :
    "L" ∈ recipients sampleState "L"
    ∧ "Q" ∉ recipients sampleState "Q"
    ∧ recipients sampleState "Q" = [] :=
  ⟨(C6_webrtc_relay sampleState "H" "offer" "sdp" "L").2.2.1 (by decide),
   (C6_webrtc_relay sampleState "H" "offer" "sdp" "Q").2.2.2.1 (by decide),
   (C6_webrtc_relay sampleState "H" "offer" "sdp" "Q").2.2.2.2 (by decide)⟩

/-- C7 counterexample: the claim fails on the code in both directions —
`leave-room` on a missing room returns before `broadcastLobbyUpdate`, so
no lobby republish happens in that no-op case (the handler emits nothing
at all), while a non-member leaving an existing room does trigger a
`user-left` notification to the room. -/
theorem C7_counterexample_no_republish :
    mapGet sampleState.rooms "room-nope" = none
    ∧ (handleLeaveRoom sampleState "Z" "room-nope" 7).2 = []
    ∧ (handleLeaveRoom sampleState "Q" "room-000042" 7).2.head?.map Delivery.event =
        some (Event.userLeft "Q") := by
  decide

/-- C7 (amended): `leave-room` on a missing room is a complete no-op —
no state change, no notification, and no lobby republish; on an existing
room whose requester is neither its host nor a listener the room store
is unchanged, but a `user-left` notice is emitted to the room's channel
and the lobby is republished. -/
theorem C7_leave_room_noop (st : ServerState) (s rid : String) (now : Nat) :
    (mapGet st.rooms rid = none → handleLeaveRoom st s rid now = (st, []))
    ∧ (∀ room, mapGet st.rooms rid = some room → s ≠ room.hostId → s ∉ room.listeners →
        (handleLeaveRoom st s rid now).1.rooms = st.rooms
        ∧ (handleLeaveRoom st s rid now).2.map (fun d => (d.dest, d.event)) =
            [(rid, Event.userLeft s),
             ("lobby", Event.roomList (roomListSnapshot (handleLeaveRoom st s rid now).1))]) := by
  constructor
  · exact hlr_none
  · intro room hm hns hnl
    rw [hlr_not_host hm (Or.inr fun e => hns e.symm)]
    have hro : ({ room with listeners := setDelete room.listeners s } : Room) = room := by
      rw [setDelete_eq_self hnl]
    rw [hro, mapSet_self hm]
    exact ⟨rfl, rfl⟩

/-- C7 witness: a leave on a missing room is a silent no-op, and a
non-member leave keeps the store intact. -/
theorem C7_leave_room_witness :
    handleLeaveRoom sampleState "Q" "room-zzz" 3 = (sampleState, [])
    ∧ (handleLeaveRoom sampleState "Z" "room-000042" 3).1.rooms = sampleState.rooms :=
  ⟨(C7_leave_room_noop sampleState "Q" "room-zzz" 3).1 (by decide),
   ((C7_leave_room_noop sampleState "Z" "room-000042" 3).2 sampleRoom
     (by decide) (by decide) (by decide)).1⟩

/-- C8: disconnect processing is idempotent: for a participant tied to
no room (and, as after a first disconnect, no longer connected and in no
channel) the handler changes nothing and emits nothing — state and
output are exactly as if the event had not occurred. -/
theorem C8_disconnect_idempotent (st : ServerState) (p : String) (now : Nat)
    (hr : ∀ r ∈ st.rooms, r.hostId ≠ p ∧ p ∉ r.listeners)
    (hc : p ∉ st.connected) (hch : ∀ q ∈ st.chans, q.1 ≠ p) :
    disconnect st p now = (st, []) := by
  have h1 : st.connected.filter (fun q => decide (q ≠ p)) = st.connected :=
    List.filter_eq_self.mpr fun a ha => by
      simp only [decide_eq_true_eq]
      rintro rfl
      exact hc ha
  have h2 : st.chans.filter (fun q => decide (q.1 ≠ p)) = st.chans :=
    List.filter_eq_self.mpr fun a ha => by
      simp only [decide_eq_true_eq]
      exact hch a ha
  have hds : dropSock st p = st := by
    unfold dropSock
    rw [h1, h2]
  rw [disconnect_eq, hds]
  exact scan_noop _ st fun r hrm => by
    rcases hr r hrm with ⟨g1, g2⟩
    rintro (h3 | h3)
    · exact g1 h3
    · exact g2 h3

/-- C8 witness: a second disconnect of the never-present `"Q"` is a
perfect no-op. -/
theorem C8_disconnect_witness : disconnect sampleState "Q" 7 = (sampleState, []) :=
  C8_disconnect_idempotent sampleState "Q" 7 (by decide) (by decide) (by decide)

/-- C9: the code evaluated at the claim's malformed inputs: a
`webrtc-signal` with no argument object makes the handler throw a
`TypeError` (the event is not ignored), and a `create-room` without an
ack callback registers the room first and then throws — the store is
mutated rather than left unaffected; `join-room` without a callback on
an unknown identifier throws as well. -/
theorem C9_malformed_input_throws :
    (webrtcSignalRaw (initState 0) "A" none).2.2 = Except.error JsError.typeError
    ∧ (webrtcSignalRaw (initState 0) "A" none).2.1 = []
    ∧ (createRoomRaw (initState 0) "A" 1700000987654 none false).2.2 =
        Except.error JsError.typeError
    ∧ mapGet (createRoomRaw (initState 0) "A" 1700000987654 none false).1.rooms
        "room-987654" = some (mkRoom "A" 1700000987654 none)
    ∧ (joinRoomRaw (initState 0) "A" "room-nope" false).2.2 =
        Except.error JsError.typeError :=
  ⟨rfl, rfl, rfl, by decide, rfl⟩

/-- C10: joining a room one already listens to succeeds, leaves the
listener set (and so the acked listener count) unchanged, and notifies
the host again with `user-joined`. -/
theorem C10_join_idempotent (st : ServerState) (p rid : String) (room : Room)
    (hm : mapGet st.rooms rid = some room) (hp : p ∈ room.listeners) :
    (joinRoom st p rid).2.2 = JoinAck.success room.info
    ∧ mapGet (joinRoom st p rid).1.rooms rid = some room
    ∧ (joinRoom st p rid).2.1.map (fun d => (d.dest, d.event)) =
        [(room.hostId, Event.userJoined p),
         ("lobby", Event.roomList (roomListSnapshot (joinRoom st p rid).1))] := by
  have hset : ({ room with listeners := setAdd room.listeners p } : Room) = room := by
    rw [setAdd_eq_self hp]
  rw [joinRoom_found hm, hset]
  refine ⟨rfl, ?_, rfl⟩
  show mapGet (mapSet (chanJoin st p rid).rooms room) rid = some room
  rw [chanJoin_rooms]
  have h2 := mapGet_mapSet_self st.rooms room
  rw [mapGet_id hm] at h2
  exact h2

/-- C10 witness: `"L"`, already a listener of the sample room, joins it
again: success ack with the same snapshot, store entry unchanged. -/
theorem C10_join_idempotent_witness :
    (joinRoom sampleState "L" "room-000042").2.2 = JoinAck.success sampleRoom.info
    ∧ mapGet (joinRoom sampleState "L" "room-000042").1.rooms "room-000042" =
        some sampleRoom :=
  ⟨(C10_join_idempotent sampleState "L" "room-000042" sampleRoom (by decide) (by decide)).1,
   (C10_join_idempotent sampleState "L" "room-000042" sampleRoom (by decide) (by decide)).2.1⟩

end Pulsify
